import Mathlib

/-!
Verification of the C++ code-completion pretraining/finetuning notebooks.

Shallow embedding of the dataset-preprocessing pipeline (comment removal,
line filtering, windowing, shuffling, train/validation split), the
confidence-gated greedy decoder `suggest_changes`, the evaluation driver
`evaluate_model`, and the `CustomCallback.on_epoch_end` epoch-countdown
state machine. Text is modelled as `List Char`; Python ints as `Int`/`Nat`;
float ratios as exact rationals; fallible code as `Except`.
-/

/-- Characters matched by Python's regex class backslash-s on `str` (and by
`str.isspace`, `str.lstrip()`, `str.rstrip()`): the ASCII whitespace
`\t\n\v\f\r`, space, the file/group/record/unit separators U+001C..U+001F,
NEL U+0085, NBSP U+00A0, U+1680, U+2000..U+200A, the line and paragraph
separators U+2028/U+2029, U+202F, U+205F and the ideographic space U+3000.
Validated exhaustively against the reference implementation over the full
code-point range. -/
def pyIsSpace (c : Char) : Bool :=
  let n := c.toNat
  decide ((9 ≤ n ∧ n ≤ 13) ∨ n = 32 ∨ (28 ≤ n ∧ n ≤ 31) ∨ n = 133 ∨ n = 160
    ∨ n = 5760 ∨ (8192 ≤ n ∧ n ≤ 8202) ∨ n = 8232 ∨ n = 8233 ∨ n = 8239
    ∨ n = 8287 ∨ n = 12288)

/-- Python `str.lstrip()` on a line: drop leading whitespace. -/
def lstrip (l : List Char) : List Char :=
  l.dropWhile pyIsSpace

/-- Whether the text begins with the two-character line-comment marker. -/
def startsWithMarker : List Char → Bool
  | a :: b :: _ => a = '/' && b = '/'
  | _ => false

/-- Index of the last occurrence of `//` inside a (non-whitespace) run,
`none` when the run contains no marker. The backtracking of the greedy
`[^\s]*` tries the longest capture first, so the rightmost in-run marker
is the one the capture stops at. -/
def lastMarkerPos : List Char → Option Nat
  | [] => none
  | c :: rest =>
      match lastMarkerPos rest with
      | some k => some (k + 1)
      | none => if startsWithMarker (c :: rest) then some 0 else none

/-- One attempt of the pattern `([^\s]*)\s*//.*` at the current position:
`some capture` when the pattern matches here, `none` otherwise. The greedy
`[^\s]*` first takes the whole non-whitespace run at this position; if the
text after the run and the following whitespace begins with `//`, that is
the match (`\s*` bridges the gap and the capture is the whole run);
otherwise it backtracks inside the run — `\s*` then matches the empty
string, so the capture ends at the last `//` inside the run, if any. -/
def captureAt (l : List Char) : Option (List Char) :=
  if startsWithMarker ((l.dropWhile (fun c => !pyIsSpace c)).dropWhile pyIsSpace)
  then some (l.takeWhile (fun c => !pyIsSpace c))
  else
    match lastMarkerPos (l.takeWhile (fun c => !pyIsSpace c)) with
    | some e => some ((l.takeWhile (fun c => !pyIsSpace c)).take e)
    | none => none

/-- Embedding of `re.sub(r"([^\s]*)\s*//.*", r"\1", line)` from the dataset
preprocessing cell: the scan tries the pattern at each position from the
left; at the first position where it matches, the match extends through
`.*` to the end of the line and is replaced by the greedy capture; a line
without `//` is unchanged. Exact for lines without `'\n'` — which is every
line `str.splitlines` can produce — since `.` stops at a newline while
this model consumes to the end. Validated against the reference
implementation on an exhaustive battery of short lines and a large random
battery over whitespace/slash/letter alphabets. -/
def removeComment : List Char → List Char
  | [] => []
  | c :: rest =>
      match captureAt (c :: rest) with
      | some cap => cap
      | none => c :: removeComment rest

/-- The characters of the module-inclusion directive `#include`. -/
def includeDirective : List Char := ['#', 'i', 'n', 'c', 'l', 'u', 'd', 'e']

/-- Embedding of `line.lstrip().startswith("#include")`. -/
def isIncludeLine (line : List Char) : Bool :=
  includeDirective.isPrefixOf (lstrip line)

/-- Embedding of the two cleaning comprehensions of the dataset
preprocessing cell: keep non-empty raw lines, remove single-line comments,
then drop lines that became empty and lines whose left-stripped content
begins with `#include`. -/
def cleanLines (rawLines : List (List Char)) : List (List Char) :=
  let noComments := (rawLines.filter (fun l => !l.isEmpty)).map removeComment
  noComments.filter (fun l => !l.isEmpty && !isIncludeLine l)

/-- Number of iterations of Python `range(0, n - span + 1, stride)`:
`ceil((n - span + 1) / stride)` when `n ≥ span`, zero otherwise. -/
def numWindows (n span stride : Nat) : Nat :=
  ((n + 1 - span) + stride - 1) / stride

/-- Embedding of the window comprehension
`["\n".join(raw_lines[i:i+SAMPLE_SPAN]) for i in range(0, len(raw_lines)-SAMPLE_SPAN+1, SAMPLE_STRIDE)]`. -/
def samplesOf (lines : List (List Char)) (span stride : Nat) : List (List Char) :=
  (List.range (numWindows lines.length span stride)).map
    (fun k => List.intercalate ['\n'] ((lines.drop (k * stride)).take span))

/-- Embedding of the Python slice `samples[:-val_idx]` (the train split):
for `val_idx = 0` this is `samples[:0]`, the empty list. -/
def pySliceTrain (samples : List α) (vIdx : Nat) : List α :=
  if vIdx = 0 then [] else samples.take (samples.length - vIdx)

/-- Embedding of the Python slice `samples[-val_idx:]` (the validation
split): for `val_idx = 0` this is `samples[0:]`, the whole list. -/
def pySliceVal (samples : List α) (vIdx : Nat) : List α :=
  if vIdx = 0 then samples else samples.drop (samples.length - vIdx)

/-- Embedding of the train/validation split of the dataset preprocessing
cell: `val_idx = int(VALIDATION_SPLIT * len(samples))` with the ratio
modelled as the exact rational `num / den`, then the two Python slices. -/
def splitSamples (samples : List α) (num den : Nat) : List α × List α :=
  let vIdx := num * samples.length / den
  (pySliceTrain samples vIdx, pySliceVal samples vIdx)

/-- Configuration constant `SAMPLE_SPAN = 3`. -/
def SAMPLE_SPAN : Nat := 3

/-- Configuration constant `SAMPLE_STRIDE = 1`. -/
def SAMPLE_STRIDE : Nat := 1

/-- Configuration constant `TRAIN_EPOCHS = 5`. -/
def TRAIN_EPOCHS : Int := 5

/-- Configuration constant `MAX_GEN_TOKENS = 100`. -/
def MAX_GEN_TOKENS : Nat := 100

/-- Configuration constant `MIN_GEN_PROB = 0.95`, as an exact rational. -/
def MIN_GEN_PROB : ℚ := 95 / 100

/-- Numerator of `VALIDATION_SPLIT = 0.2`. -/
def VALIDATION_SPLIT_NUM : Nat := 1

/-- Denominator of `VALIDATION_SPLIT = 0.2`. -/
def VALIDATION_SPLIT_DEN : Nat := 5

/-- Abstract tokenizer collaborator: `encode` and `decode` over token ids,
as used by `suggest_changes` and `evaluate_model`. -/
structure Tokenizer where
  encode : List Char → List Nat
  decode : List Nat → List Char

/-- A language model, abstracted to the normalized next-token probability
distribution it yields at the final position for a given id sequence
(the embedding of `torch.softmax(model(ids).logits[-1], dim=-1)`). -/
def LanguageModel : Type := List Nat → List ℚ

/-- First index of the maximum of `l`, the semantics of `torch.argmax` on a
one-dimensional tensor (ties broken by lowest index). Auxiliary scan. -/
def argmaxGo : List ℚ → Nat → Nat → ℚ → Nat
  | [], _, best, _ => best
  | x :: xs, i, best, bv =>
      if bv < x then argmaxGo xs (i + 1) i x else argmaxGo xs (i + 1) best bv

/-- Embedding of `int(torch.argmax(predictions).item())`. -/
def argmaxIdx : List ℚ → Nat
  | [] => 0
  | x :: xs => argmaxGo xs 1 0 x

/-- The `while` loop of `suggest_changes`, with `fuel` the number of tokens
still allowed (`MAX_GEN_TOKENS - (len(ids) - input_len)`): compute the
distribution, take the arg-max token, stop when its probability is
strictly below `min_p`, otherwise append it and continue. -/
def genLoop (m : LanguageModel) (minP : ℚ) : Nat → List Nat → List Nat
  | 0, ids => ids
  | fuel + 1, ids =>
      let preds := m ids
      let nextId := argmaxIdx preds
      if preds.getD nextId 0 < minP then ids
      else genLoop m minP fuel (ids ++ [nextId])

/-- Embedding of `suggest_changes` (pretraining notebook): raise on an empty
prompt, encode the prompt, run the confidence-gated greedy loop bounded by
`maxGenTokens` (the global `MAX_GEN_TOKENS` in the source), and decode only
the ids beyond the recorded prompt length. -/
def suggest_changes (m : LanguageModel) (tok : Tokenizer)
    (maxGenTokens : Nat) (minP : ℚ) (prompt : List Char) :
    Except String (List Char) :=
  if prompt.isEmpty then Except.error "suggest_changes: prompt is empty."
  else
    let ids := tok.encode prompt
    let inputLen := ids.length
    let final := genLoop m minP maxGenTokens ids
    Except.ok (tok.decode (final.drop inputLen))

/-- Embedding of `suggest_changes` (finetuning notebook): raise on an empty
prompt, then delegate generation to the external `TextGenerationPipeline`,
abstracted as the function `pipe`. -/
def suggest_changes_pipe (pipe : List Char → List Char)
    (prompt : List Char) : Except String (List Char) :=
  if prompt.isEmpty then Except.error "suggest_changes: prompt is empty."
  else Except.ok (pipe prompt)

/-- The `prompt_strategy` parameter of `evaluate_model`. -/
inductive PromptStrategy where
  | start
  | ending
  | all
deriving DecidableEq

/-- The prompt-slicing step of `evaluate_model`: `ids[:len(ids)//2]` for
`"start"`, `ids[len(ids)//2:]` for `"end"`, all ids otherwise. -/
def promptIds (ids : List Nat) : PromptStrategy → List Nat
  | PromptStrategy.start => ids.take (ids.length / 2)
  | PromptStrategy.ending => ids.drop (ids.length / 2)
  | PromptStrategy.all => ids

/-- Embedding of `evaluate_model`: raise when neither dataset nor literal
text is supplied; otherwise take the token ids of a randomly selected
sample (the seeded `random.randint(0, len(dataset)-1)` draw is modelled by
the supplied index, reduced modulo the dataset size) or encode the literal
text, slice a prompt per the strategy, decode it, and call
`suggest_changes` on it; the printing side effects are elided and the
generated continuation (or the raised error) is the result. -/
def evaluate_model (m : LanguageModel) (tok : Tokenizer) (randIdx : Nat)
    (dataset : Option (List (List Nat))) (cppText : Option (List Char))
    (strategy : PromptStrategy) (maxGenTokens : Nat) (minP : ℚ) :
    Except String (List Char) :=
  match dataset, cppText with
  | none, none =>
      Except.error "evaluate_model: one of dataset and cpp_text must be set."
  | some ds, _ =>
      let ids := ds.getD (randIdx % ds.length) []
      suggest_changes m tok maxGenTokens minP (tok.decode (promptIds ids strategy))
  | none, some txt =>
      let ids := tok.encode txt
      suggest_changes m tok maxGenTokens minP (tok.decode (promptIds ids strategy))

/-- The mutable state touched by `CustomCallback.on_epoch_end`: the
callback's `_remaining_train_epochs` counter (a Python int, hence `Int`)
and the trainer's `control.should_training_stop` flag. -/
structure ControllerState where
  remainingTrainEpochs : Int
  shouldTrainingStop : Bool
deriving DecidableEq

/-- Embedding of `CustomCallback.on_epoch_end` (the `evaluate_model` side
effect elided): decrement the counter, and set the stop request exactly
when the decremented counter equals zero. -/
def on_epoch_end (s : ControllerState) : ControllerState :=
  let r := s.remainingTrainEpochs - 1
  { remainingTrainEpochs := r
    shouldTrainingStop := if r = 0 then true else s.shouldTrainingStop }

/-- Initial controller state: `_remaining_train_epochs = TRAIN_EPOCHS` and
no stop requested. -/
def initController (budget : Int) : ControllerState :=
  { remainingTrainEpochs := budget, shouldTrainingStop := false }

/-- One step of a 32-bit linear congruential generator. -/
def lcg (s : Nat) : Nat := (1664525 * s + 1013904223) % 4294967296

/-- Remove the element at index `i` (Python `xs[:i] + xs[i+1:]`). -/
def removeNth (xs : List α) (i : Nat) : List α :=
  xs.take i ++ xs.drop (i + 1)

/-- Fuel-indexed selection loop of the modelled shuffle. -/
def shuffleGo : Nat → Nat → List α → List α
  | _, 0, _ => []
  | _, _ + 1, [] => []
  | s, n + 1, x :: rest =>
      let l := x :: rest
      let i := s % (n + 1)
      l.getD i x :: shuffleGo (lcg s) n (removeNth l i)

/-- Modelled from the spec: `random.shuffle(samples)` after
`random.seed(RANDOM_SEED)` — the Mersenne-Twister generator is library
code absent from the repository, so the "seeded pseudorandom permutation"
is modelled as a deterministic Fisher-Yates-style selection driven by an
LCG stream seeded with the run seed. -/
def shuffleSeeded (seed : Nat) (xs : List α) : List α :=
  shuffleGo seed xs.length xs

/-- The full pipeline of one run: clean the raw lines, window them into
samples, shuffle with the run seed, split into train/validation, and run
the confidence-gated decoder on a prompt; everything a fixed seed is
claimed to make reproducible. -/
def fullPipeline (m : LanguageModel) (tok : Tokenizer)
    (span stride num den maxGenTokens : Nat) (minP : ℚ)
    (rawLines : List (List Char)) (seed : Nat) (prompt : List Char) :
    (List (List Char) × List (List Char)) × Except String (List Char) :=
  let cleaned := cleanLines rawLines
  let samples := samplesOf cleaned span stride
  let shuffled := shuffleSeeded seed samples
  (splitSamples shuffled num den,
   suggest_changes m tok maxGenTokens minP prompt)

/-- A concrete tokenizer used by the concrete-input witnesses: encode a
character as its code point, decode by the inverse. It decodes the empty
id sequence to the empty text. -/
def idTokenizer : Tokenizer :=
  { encode := fun s => s.map Char.toNat
    decode := fun ids => ids.map Char.ofNat }

/-- A stub model whose distribution is the same at every step, used by the
concrete-input witnesses. -/
def constModel (probs : List ℚ) : LanguageModel := fun _ => probs

lemma numWindows_of_le (n span stride : Nat) (hle : span ≤ n) (hstride : 0 < stride) :
    numWindows n span stride = (n - span) / stride + 1 := by
  unfold numWindows
  have h1 : n + 1 - span = (n - span) + 1 := by omega
  have h2 : (n - span) + 1 + stride - 1 = (n - span) + stride := by omega
  rw [h1, h2, Nat.add_div_right _ hstride]

lemma numWindows_of_lt (n span stride : Nat) (hlt : n < span) (hstride : 0 < stride) :
    numWindows n span stride = 0 := by
  unfold numWindows
  have h1 : n + 1 - span = 0 := by omega
  rw [h1]
  exact Nat.div_eq_of_lt (by omega)

lemma getD_map_range (f : Nat → α) (n k : Nat) (d : α) (hk : k < n) :
    ((List.range n).map f).getD k d = f k := by
  simp [List.getD_eq_getElem?_getD, List.getElem?_map, List.getElem?_range hk]

/-- C3: for positive span and stride, windowing a cleaned line sequence of
length `N ≥ span` yields exactly `(N - span) / stride + 1` samples, the
`k`-th being the newline-join of the `span` consecutive lines starting at
`k * stride`; and when `N < span` it yields no samples at all. -/
theorem C3_windowing (lines : List (List Char)) (span stride : Nat)
    (hspan : 0 < span) (hstride : 0 < stride) :
    (span ≤ lines.length →
      (samplesOf lines span stride).length = (lines.length - span) / stride + 1
      ∧ ∀ k, k < (lines.length - span) / stride + 1 →
          (samplesOf lines span stride).getD k []
            = List.intercalate ['\n'] ((lines.drop (k * stride)).take span)
          ∧ ((lines.drop (k * stride)).take span).length = span)
    ∧ (lines.length < span → samplesOf lines span stride = []) := by
  constructor
  · intro hle
    constructor
    · simp [samplesOf, numWindows_of_le _ _ _ hle hstride]
    · intro k hk
      have hks : k * stride ≤ lines.length - span := by
        have hk' : k ≤ (lines.length - span) / stride := by omega
        calc k * stride ≤ (lines.length - span) / stride * stride :=
              Nat.mul_le_mul_right _ hk'
          _ ≤ lines.length - span := Nat.div_mul_le_self _ _
      refine ⟨?_, ?_⟩
      · have hkn : k < numWindows lines.length span stride := by
          rw [numWindows_of_le _ _ _ hle hstride]; exact hk
        exact getD_map_range _ _ _ _ hkn
      · simp only [List.length_take, List.length_drop]
        omega
  · intro hlt
    simp [samplesOf, numWindows_of_lt _ _ _ hlt hstride]

theorem C3_windowing_witness :
    (0 < 3 ∧ 0 < 1 ∧ (3:Nat) ≤ 4)
    ∧ (samplesOf [['a'], ['b'], ['c'], ['d']] 3 1).length = (4 - 3) / 1 + 1 :=
  ⟨by decide,
   (((C3_windowing [['a'], ['b'], ['c'], ['d']] 3 1 (by decide) (by decide)).1)
     (by decide)).1⟩

/-- C1: evaluation of the splitter at a pool where
`val_idx = int(VALIDATION_SPLIT * len(samples)) = 0`: the code produces an
empty train set and puts the whole shuffled pool into the validation set,
because `samples[:-0]` is empty and `samples[-0:]` is everything. -/
theorem C1_splitter_degenerate :
    splitSamples [['a'], ['b'], ['c'], ['d']]
        VALIDATION_SPLIT_NUM VALIDATION_SPLIT_DEN
      = ([], [['a'], ['b'], ['c'], ['d']])
    ∧ VALIDATION_SPLIT_NUM * 4 / VALIDATION_SPLIT_DEN = 0 := by
  decide

lemma dropWhile_head_not (p : α → Bool) (l : List α) (d : α) (tail : List α)
    (h : l.dropWhile p = d :: tail) : p d = false := by
  induction l with
  | nil => simp [List.dropWhile_nil] at h
  | cons c rest ih =>
    rw [List.dropWhile_cons] at h
    by_cases hc : p c = true
    · rw [if_pos hc] at h
      exact ih h
    · rw [if_neg hc] at h
      cases h
      exact Bool.eq_false_iff.mpr hc

/-- C4: one step of the confidence-gated loop with generation budget left:
if the arg-max token's probability is strictly below `min_p` the loop
terminates with the current ids, and if it is greater than or equal to
`min_p` (equality included) the token is appended and the loop continues. -/
theorem C4_confidence_gate (m : LanguageModel) (minP : ℚ) (fuel : Nat)
    (ids : List Nat) :
    ((m ids).getD (argmaxIdx (m ids)) 0 < minP →
      genLoop m minP (fuel + 1) ids = ids)
    ∧ (minP ≤ (m ids).getD (argmaxIdx (m ids)) 0 →
      genLoop m minP (fuel + 1) ids
        = genLoop m minP fuel (ids ++ [argmaxIdx (m ids)])) := by
  constructor
  · intro hlt
    rw [genLoop, if_pos hlt]
  · intro hge
    rw [genLoop, if_neg (not_lt.mpr hge)]

theorem C4_confidence_gate_witness :
    genLoop (constModel [(1:ℚ)/4, 1/2]) (3/4) (0 + 1) [9] = [9]
    ∧ genLoop (constModel [(1:ℚ)/4, 1/2]) (1/2) (0 + 1) [9]
        = genLoop (constModel [(1:ℚ)/4, 1/2]) (1/2) 0
            ([9] ++ [argmaxIdx (constModel [(1:ℚ)/4, 1/2] [9])]) :=
  ⟨(C4_confidence_gate (constModel [(1:ℚ)/4, 1/2]) (3/4) 0 [9]).1
     (by norm_num [constModel, argmaxIdx, argmaxGo]),
   (C4_confidence_gate (constModel [(1:ℚ)/4, 1/2]) (1/2) 0 [9]).2
     (by norm_num [constModel, argmaxIdx, argmaxGo])⟩

lemma genLoop_eq_append (m : LanguageModel) (minP : ℚ) :
    ∀ (fuel : Nat) (ids : List Nat),
      ∃ gen : List Nat, genLoop m minP fuel ids = ids ++ gen
        ∧ gen.length ≤ fuel := by
  intro fuel
  induction fuel with
  | zero => intro ids; exact ⟨[], by simp [genLoop]⟩
  | succ n ih =>
    intro ids
    by_cases h : (m ids).getD (argmaxIdx (m ids)) 0 < minP
    · refine ⟨[], ?_, by simp⟩
      rw [genLoop, if_pos h, List.append_nil]
    · obtain ⟨gen, hg, hlen⟩ := ih (ids ++ [argmaxIdx (m ids)])
      refine ⟨argmaxIdx (m ids) :: gen, ?_, by simpa using Nat.succ_le_succ hlen⟩
      rw [genLoop, if_neg h, hg]
      simp

/-- C5: for a non-empty prompt the confidence-gated decoder succeeds, the
generated suffix holds at most `maxGenTokens` tokens, and the returned text
is the tokenizer-decode of exactly that suffix (the ids beyond the recorded
prompt length); if already the first step's top probability is below
`min_p`, the suffix is empty and (the tokenizer decoding the empty id
sequence to empty text) the returned continuation is empty. -/
theorem C5_decoder_bounds (m : LanguageModel) (tok : Tokenizer)
    (maxGenTokens : Nat) (minP : ℚ) (prompt : List Char)
    (hp : prompt ≠ []) (hdec : tok.decode [] = []) :
    (∃ gen : List Nat, gen.length ≤ maxGenTokens
      ∧ genLoop m minP maxGenTokens (tok.encode prompt)
          = tok.encode prompt ++ gen
      ∧ suggest_changes m tok maxGenTokens minP prompt
          = Except.ok (tok.decode gen))
    ∧ ((m (tok.encode prompt)).getD (argmaxIdx (m (tok.encode prompt))) 0 < minP →
        suggest_changes m tok maxGenTokens minP prompt = Except.ok []) := by
  have hne : prompt.isEmpty = false := by
    cases prompt with
    | nil => exact absurd rfl hp
    | cons c cs => rfl
  obtain ⟨gen, hg, hlen⟩ := genLoop_eq_append m minP maxGenTokens (tok.encode prompt)
  constructor
  · refine ⟨gen, hlen, hg, ?_⟩
    rw [suggest_changes, hne]
    simp only [Bool.false_eq_true, if_false, hg, List.drop_left]
  · intro hlt
    have hstop : genLoop m minP maxGenTokens (tok.encode prompt)
        = tok.encode prompt := by
      cases maxGenTokens with
      | zero => rw [genLoop]
      | succ n => rw [genLoop, if_pos hlt]
    rw [suggest_changes, hne]
    simp only [Bool.false_eq_true, if_false, hstop, List.drop_length, hdec]

theorem C5_decoder_bounds_witness :
    (['p'] : List Char) ≠ []
    ∧ suggest_changes (constModel [(1:ℚ)/4]) idTokenizer 5 (1/2) ['p']
        = Except.ok [] :=
  ⟨by decide,
   (C5_decoder_bounds (constModel [(1:ℚ)/4]) idTokenizer 5 (1/2) ['p']
      (by decide) rfl).2 (by norm_num [constModel, argmaxIdx, argmaxGo])⟩

lemma controller_iterate (budget : Int) (hb : 0 < budget) (b : Bool) :
    ∀ k : Nat,
      (on_epoch_end^[k] ⟨budget, b⟩).remainingTrainEpochs = budget - k
      ∧ (on_epoch_end^[k] ⟨budget, b⟩).shouldTrainingStop
          = (b || decide (budget ≤ (k : Int))) := by
  intro k
  induction k with
  | zero =>
    constructor
    · simp
    · simp only [Function.iterate_zero, id_eq]
      have : ¬ budget ≤ (0 : Int) := by omega
      simp [this]
  | succ n ih =>
    rw [Function.iterate_succ_apply']
    obtain ⟨ih1, ih2⟩ := ih
    constructor
    · simp only [on_epoch_end, ih1]
      push_cast
      ring
    · simp only [on_epoch_end, ih1, ih2]
      by_cases hc : budget - n = 1
      · have h1 : budget - (n : Int) - 1 = 0 := by omega
        have h2 : budget ≤ ((n : Int) + 1) := by omega
        simp [h1, h2]
      · have h1 : budget - (n : Int) - 1 ≠ 0 := by omega
        have h2 : (budget ≤ (n : Int)) ↔ (budget ≤ (n : Int) + 1) := by omega
        simp only [if_neg h1]
        congr 1
        simp [h2]

/-- C6: from `Running(budget)` with a positive budget, each epoch-boundary
call decrements the counter by exactly one (`budget - k` after `k` calls),
and the stop request is raised exactly from the `budget`-th call on,
whatever the prior value `b` of the shared stop flag (so also when the
external early-stopping policy set it first); for budget 5 the transition
happens exactly at the 5th call. -/
theorem C6_epoch_budget (budget : Int) (hb : 0 < budget) (b : Bool) (k : Nat) :
    (on_epoch_end^[k] ⟨budget, b⟩).remainingTrainEpochs = budget - k
    ∧ ((on_epoch_end^[k] ⟨budget, b⟩).shouldTrainingStop
        = (b || decide (budget ≤ (k : Int)))) :=
  controller_iterate budget hb b k

theorem C6_epoch_budget_witness :
    (0 : Int) < TRAIN_EPOCHS
    ∧ ((on_epoch_end^[5] ⟨TRAIN_EPOCHS, false⟩).remainingTrainEpochs
          = TRAIN_EPOCHS - (5 : Nat)
       ∧ (on_epoch_end^[5] ⟨TRAIN_EPOCHS, false⟩).shouldTrainingStop
          = (false || decide (TRAIN_EPOCHS ≤ ((5 : Nat) : Int)))) :=
  ⟨by decide, C6_epoch_budget TRAIN_EPOCHS (by decide) false 5⟩

/-- C9: the callback issues the stop request at most once — starting from a
fresh controller with positive budget, the epoch-boundary call numbered
`k + 1` changes the stop flag from unset to set exactly when `k + 1` equals
the budget (the counter's 1 → 0 transition); and every call past the
budget leaves the counter strictly negative, so the `== 0` test never fires
again. -/
theorem C9_stop_at_most_once (budget : Int) (hb : 0 < budget) (k : Nat) :
    (((on_epoch_end^[k + 1] (initController budget)).shouldTrainingStop = true
        ∧ (on_epoch_end^[k] (initController budget)).shouldTrainingStop = false)
      ↔ ((k : Int) + 1 = budget))
    ∧ (budget < (k : Int) →
        (on_epoch_end^[k] (initController budget)).remainingTrainEpochs < 0) := by
  have hk := controller_iterate budget hb false k
  have hk1 := controller_iterate budget hb false (k + 1)
  unfold initController
  constructor
  · rw [hk.2, hk1.2]
    simp only [Bool.false_or, decide_eq_true_eq, decide_eq_false_iff_not]
    constructor
    · rintro ⟨h1, h2⟩
      push_cast at h1 h2 ⊢
      omega
    · intro h
      push_cast at h ⊢
      omega
  · intro hgt
    rw [hk.1]
    omega

theorem C9_stop_at_most_once_witness :
    ((((on_epoch_end^[4 + 1] (initController TRAIN_EPOCHS)).shouldTrainingStop = true
        ∧ (on_epoch_end^[4] (initController TRAIN_EPOCHS)).shouldTrainingStop = false)
      ↔ (((4 : Nat) : Int) + 1 = TRAIN_EPOCHS))
    ∧ (TRAIN_EPOCHS < ((4 : Nat) : Int) →
        (on_epoch_end^[4] (initController TRAIN_EPOCHS)).remainingTrainEpochs < 0)) :=
  C9_stop_at_most_once TRAIN_EPOCHS (by decide) 4

/-- C7: both decoder variants fail with the empty-prompt `ValueError`
exactly on the empty prompt: on `""` each returns the error, and on any
non-empty prompt the guard passes and each returns a generated result. -/
theorem C7_empty_prompt_guard (m : LanguageModel) (tok : Tokenizer)
    (maxGenTokens : Nat) (minP : ℚ) (pipe : List Char → List Char)
    (prompt : List Char) :
    (prompt = [] →
      suggest_changes m tok maxGenTokens minP prompt
          = Except.error "suggest_changes: prompt is empty."
      ∧ suggest_changes_pipe pipe prompt
          = Except.error "suggest_changes: prompt is empty.")
    ∧ (prompt ≠ [] →
      (∃ r, suggest_changes m tok maxGenTokens minP prompt = Except.ok r)
      ∧ suggest_changes_pipe pipe prompt = Except.ok (pipe prompt)) := by
  constructor
  · rintro rfl
    exact ⟨rfl, rfl⟩
  · intro hp
    have hne : prompt.isEmpty = false := by
      cases prompt with
      | nil => exact absurd rfl hp
      | cons c cs => rfl
    constructor
    · refine ⟨tok.decode ((genLoop m minP maxGenTokens (tok.encode prompt)).drop
          (tok.encode prompt).length), ?_⟩
      rw [suggest_changes, hne]
      simp only [Bool.false_eq_true, if_false]
    · rw [suggest_changes_pipe, hne]
      simp only [Bool.false_eq_true, if_false]

theorem C7_empty_prompt_guard_witness :
    (suggest_changes (constModel []) idTokenizer 3 0 []
        = Except.error "suggest_changes: prompt is empty.")
    ∧ (suggest_changes_pipe (fun s => s) ['p'] = Except.ok ['p']) :=
  ⟨((C7_empty_prompt_guard (constModel []) idTokenizer 3 0 (fun s => s) []).1
      rfl).1,
   ((C7_empty_prompt_guard (constModel []) idTokenizer 3 0 (fun s => s) ['p']).2
      (by decide)).2⟩

/-- C8: determinism of the full run — two executions of the pipeline
(cleaning, windowing, seeded shuffling, splitting, decoding) on equal
inputs with equal seeds produce equal train/validation partitions and
equal decode outputs. -/
theorem C8_determinism (m : LanguageModel) (tok : Tokenizer)
    (span stride num den maxGenTokens : Nat) (minP : ℚ)
    (rawLines₁ rawLines₂ : List (List Char)) (seed₁ seed₂ : Nat)
    (prompt₁ prompt₂ : List Char)
    (hraw : rawLines₁ = rawLines₂) (hseed : seed₁ = seed₂)
    (hprompt : prompt₁ = prompt₂) :
    fullPipeline m tok span stride num den maxGenTokens minP
        rawLines₁ seed₁ prompt₁
      = fullPipeline m tok span stride num den maxGenTokens minP
          rawLines₂ seed₂ prompt₂ := by
  rw [hraw, hseed, hprompt]

theorem C8_determinism_witness :
    fullPipeline (constModel [(1:ℚ)]) idTokenizer
        SAMPLE_SPAN SAMPLE_STRIDE VALIDATION_SPLIT_NUM VALIDATION_SPLIT_DEN
        MAX_GEN_TOKENS MIN_GEN_PROB [['a'], ['b'], ['c'], ['d']] 42 ['p']
      = fullPipeline (constModel [(1:ℚ)]) idTokenizer
          SAMPLE_SPAN SAMPLE_STRIDE VALIDATION_SPLIT_NUM VALIDATION_SPLIT_DEN
          MAX_GEN_TOKENS MIN_GEN_PROB [['a'], ['b'], ['c'], ['d']] 42 ['p'] :=
  C8_determinism (constModel [(1:ℚ)]) idTokenizer
    SAMPLE_SPAN SAMPLE_STRIDE VALIDATION_SPLIT_NUM VALIDATION_SPLIT_DEN
    MAX_GEN_TOKENS MIN_GEN_PROB [['a'], ['b'], ['c'], ['d']]
    [['a'], ['b'], ['c'], ['d']] 42 42 ['p'] ['p'] rfl rfl rfl

/-- C10: with a dataset supplied (so `evaluate_model`'s own guard passes),
the `"start"` prompt strategy on a selected sample with fewer than two
tokens slices an empty prompt id list; as the tokenizer decodes the empty
id sequence to the empty string, the derived prompt is empty and the call
fails with the decoder's empty-prompt `ValueError`. -/
theorem C10_start_half_empty (m : LanguageModel) (tok : Tokenizer)
    (randIdx maxGenTokens : Nat) (minP : ℚ) (ds : List (List Nat))
    (hdec : tok.decode [] = [])
    (hlen : (ds.getD (randIdx % ds.length) []).length < 2) :
    evaluate_model m tok randIdx (some ds) none PromptStrategy.start
        maxGenTokens minP
      = Except.error "suggest_changes: prompt is empty." := by
  rw [evaluate_model]
  have hhalf : (ds.getD (randIdx % ds.length) []).length / 2 = 0 := by omega
  rw [promptIds, hhalf, List.take_zero, hdec]
  rfl

theorem C10_start_half_empty_witness :
    idTokenizer.decode [] = []
    ∧ evaluate_model (constModel []) idTokenizer 0 (some [[65]]) none
        PromptStrategy.start 5 (1/2)
      = Except.error "suggest_changes: prompt is empty." :=
  ⟨rfl, C10_start_half_empty (constModel []) idTokenizer 0 5 (1/2) [[65]]
     rfl (by decide)⟩
